import Mathlib

/-!
Verification development for the HippoCamp WebUI replay engine
(`docker/webui/app.py`): the event loader, the replay scheduler worker,
the replay session start/stop routes, and the bounded command-history bus.

Modelling conventions, shared by all definitions below:

* JSON values coming out of `json.load` are modelled by `JVal`.  A JSON
  string is carried together with the result of Python `float()` parsing
  applied to it (`none` when `float()` would raise `ValueError`), since the
  concrete float-literal grammar is outside the scope of this development.
* Python floats (event timestamps, speeds) are modelled exactly as `Rat`.
* Wall-clock readings (`datetime.now(...)`, ISO strings) are opaque: a call
  site that records "now" receives it as an explicit parameter (`Nat` for
  the replay-state fields, `String`/`Int` for the history timestamp
  payload).  `time.sleep`/`time.perf_counter` have no shared-state effect
  and are therefore not modelled.
* The mutable module-level dictionaries (`replay_state`, `command_history`)
  become explicit state threaded through the functions that mutate them.
-/

/-- A parsed JSON value as produced by `json.load`.  A `str` constructor
carries the string and the result of Python `float()` applied to it
(`none` = `ValueError`).  Objects are association lists with distinct keys
(as Python dicts are). -/
inductive JVal where
  | num (q : Rat)
  | str (s : String) (asFloat : Option Rat)
  | bool (b : Bool)
  | null
  | list (vs : List JVal)
  | dict (fs : List (String × JVal))

/-- Python `float(v)` on a JSON value, `none` when it raises
(`TypeError` on `None`/lists/dicts, `ValueError` on a non-numeric string).
Note `float(True) = 1.0`, `float(False) = 0.0`. -/
def pyFloat : JVal → Option Rat
  | .num q => some q
  | .str _ p => p
  | .bool b => some (if b then 1 else 0)
  | .null => none
  | .list _ => none
  | .dict _ => none

/-- Whether a JSON value is a Python dict (`isinstance(v, dict)`). -/
def JVal.isDict : JVal → Bool
  | .dict _ => true
  | _ => false

/-- Python `str(v)`.  Faithful on strings (the only case the claims
depend on); the rendering of the remaining cases is abstracted. -/
def pyStr : JVal → String
  | .num q => toString q
  | .str s _ => s
  | .bool b => if b then "True" else "False"
  | .null => "None"
  | .list _ => "[python list]"
  | .dict _ => "[python dict]"

/-- A loaded replay event: the record's fields plus its normalized numeric
`timestamp` (the loader overwrites the record's `timestamp` entry with
`float(...)`; lookups of `timestamp` downstream read `Event.timestamp`,
every other key reads `fields`). -/
structure Event where
  timestamp : Rat
  fields : List (String × JVal)

/-- Timestamp normalization of one dict record inside
`_load_replay_events`: `float(normalized.get('timestamp', 0.0))`, falling
back to `0.0` when `float` raises. -/
def normalizeRecord (fs : List (String × JVal)) : Event :=
  { timestamp :=
      match fs.lookup "timestamp" with
      | none => 0
      | some v => (pyFloat v).getD 0,
    fields := fs }

/-- The per-record filter of `_load_replay_events`: dict records are
normalized and kept, non-dict records are skipped (`continue`). -/
def keepRecord : JVal → Option Event
  | .dict fs => some (normalizeRecord fs)
  | _ => none

/-- The wrapper-object unwrapping at the top of `_load_replay_events`:
a dict payload is replaced by its `events` (else `data`) entry when that
entry is a list. -/
def unwrapTracePayload : JVal → JVal
  | .dict fs =>
    match fs.lookup "events" with
    | some (.list vs) => .list vs
    | _ =>
      match fs.lookup "data" with
      | some (.list vs) => .list vs
      | _ => .dict fs
  | v => v

/-- The Python sort key `(row[1].get('timestamp', 0.0), row[0])` compared
lexicographically: ascending timestamp, original index breaking ties. -/
def replayKeyLe (a b : Nat × Event) : Prop :=
  a.2.timestamp < b.2.timestamp ∨ (a.2.timestamp = b.2.timestamp ∧ a.1 ≤ b.1)

instance : DecidableRel replayKeyLe := fun a b =>
  inferInstanceAs (Decidable (a.2.timestamp < b.2.timestamp ∨
    (a.2.timestamp = b.2.timestamp ∧ a.1 ≤ b.1)))

instance : IsTotal (Nat × Event) replayKeyLe where
  total a b := by
    rcases lt_trichotomy a.2.timestamp b.2.timestamp with h | h | h
    · exact Or.inl (Or.inl h)
    · rcases Nat.le_total a.1 b.1 with h' | h'
      · exact Or.inl (Or.inr ⟨h, h'⟩)
      · exact Or.inr (Or.inr ⟨h.symm, h'⟩)
    · exact Or.inr (Or.inl h)

instance : IsTrans (Nat × Event) replayKeyLe where
  trans a b c hab hbc := by
    rcases hab with h1 | ⟨h1, h1'⟩ <;> rcases hbc with h2 | ⟨h2, h2'⟩
    · exact Or.inl (h1.trans h2)
    · exact Or.inl (h2 ▸ h1)
    · exact Or.inl (h1 ▸ h2)
    · exact Or.inr ⟨h1.trans h2, h1'.trans h2'⟩

/-- The `indexed_events` list of `_load_replay_events` after sorting:
`enumerate` the payload, keep/normalize dict records, sort by
`(timestamp, original_index)`.  Python's `list.sort` is stable, and the
key contains the (unique) original index, so every sort by this total
order — here insertion sort — produces the same list as the source. -/
def indexedReplayEvents (items : List JVal) : List (Nat × Event) :=
  List.insertionSort replayKeyLe
    (items.enum.filterMap fun p => (keepRecord p.2).map fun e => (p.1, e))

/-- `_load_replay_events` on an already-parsed trace document: unwrap an
array-wrapping object, fail with `ValueError` unless the payload is a
list, then return the normalized records sorted by
`(timestamp, original_index)`. -/
def _load_replay_events (doc : JVal) : Except String (List Event) :=
  match unwrapTracePayload doc with
  | .list items => .ok ((indexedReplayEvents items).map Prod.snd)
  | _ => .error "events file must be a JSON array"

/-- The shared `replay_state` dictionary.  Wall-clock ISO strings
(`started_at`, `finished_at`) are opaque `Nat` readings. -/
structure ReplayState where
  running : Bool
  completed : Bool
  session_id : Nat
  events_path : String
  speed : Rat
  events_total : Nat
  events_sent : Nat
  last_event_type : String
  last_event_ts : Option Rat
  started_at : Option Nat
  finished_at : Option Nat
  error : Option String
deriving DecidableEq

/-- The module-level initial value of `replay_state` (with the default
`HIPPOCAMP_REPLAY_SPEED` of `1.0`). -/
def initialReplayState : ReplayState :=
  { running := false, completed := false, session_id := 0, events_path := "",
    speed := 1, events_total := 0, events_sent := 0, last_event_type := "",
    last_event_ts := none, started_at := none, finished_at := none,
    error := none }

/-- `_replay_state_snapshot`: a point-in-time copy of the shared state
taken under the lock (`dict(replay_state)`). -/
def _replay_state_snapshot (s : ReplayState) : ReplayState := s

/-- `_stop_replay_session(reason)`: clears `running` and `completed`,
bumps the epoch, stamps `finished_at`, and sets `error` to `None` for the
reasons `'stopped'` and `''` and to the reason text otherwise.  The
condition-variable broadcast and the state broadcast have no
shared-state effect. -/
def _stop_replay_session (reason : String) (now : Nat) (s : ReplayState) :
    ReplayState :=
  { s with
    running := false
    completed := false
    session_id := s.session_id + 1
    finished_at := some now
    error := if reason = "stopped" ∨ reason = "" then none else some reason }

/-- The `/api/replay/stop` route body: stop with the fixed reason
`'stopped'` and return the snapshot. -/
def replay_stop (now : Nat) (s : ReplayState) : ReplayState :=
  _stop_replay_session "stopped" now s

/-- Python `speed or 1.0` (`0.0` is falsy). -/
def pyOrOne (speed : Rat) : Rat := if speed = 0 then 1 else speed

/-- `_start_replay_session` up to the worker spawn: load the events
(propagating the loader's error), reject an empty sequence, and build the
fresh running state with the next epoch.  The returned event list is
what the spawned worker thread receives. -/
def _start_replay_session (doc : JVal) (pathStr : String) (speed : Rat)
    (now : Nat) (s : ReplayState) : Except String (ReplayState × List Event) :=
  match _load_replay_events doc with
  | .error m => .error m
  | .ok events =>
    if events.isEmpty then .error "events file is empty"
    else
      .ok ({ running := true, completed := false,
             session_id := s.session_id + 1, events_path := pathStr,
             speed := max (1/20 : Rat) (pyOrOne speed),
             events_total := events.length, events_sent := 0,
             last_event_type := "", last_event_ts := none,
             started_at := some now, finished_at := none,
             error := none }, events)

/-- Outcome of the `/api/replay/start` route: the HTTP success flag and
error message, the shared state after the call, and the epoch/events a
spawned worker was bound to (`none` when no worker was spawned). -/
structure StartOutcome where
  ok : Bool
  errorMsg : Option String
  state : ReplayState
  spawned : Option (Nat × List Event)

/-- The `/api/replay/start` route body after path resolution, applied to
the parsed trace document: floor the speed at `0.05`, stop a running
session with reason `'restarted'`, then try `_start_replay_session`; on
failure merge `running=False, completed=False, events_path, error,
finished_at` into the shared state (`_update_replay_state`) and report
the error to the caller. -/
def replay_start (doc : JVal) (pathStr : String) (speedRaw : Rat)
    (now : Nat) (s : ReplayState) : StartOutcome :=
  let speed := max (1/20 : Rat) speedRaw
  let s0 := if (_replay_state_snapshot s).running
    then _stop_replay_session "restarted" now s else s
  match _start_replay_session doc pathStr speed now s0 with
  | .ok (s', events) =>
    { ok := true, errorMsg := none, state := s',
      spawned := some (s'.session_id, events) }
  | .error m =>
    { ok := false
      errorMsg := some m
      state :=
        { s0 with
          running := false
          completed := false
          events_path := pathStr
          error := some m
          finished_at := some now }
      spawned := none }

/-- The history capacity `MAX_HISTORY`. -/
def MAX_HISTORY : Nat := 100

/-- The pair produced by `_timestamp_payload()`: the current ISO string
and millisecond count, received here as explicit parameters. -/
structure TimestampPayload where
  timestamp : String
  ts_ms : Int

/-- One `command_history` entry.  `timestamp`/`ts_ms` are optional
because `terminal_notify` builds the entry before deciding whether to
stamp it; `result` is the free-form JSON result value (`none` = Python
`None`). -/
structure HistEntry where
  source : String
  command : String
  result : Option JVal
  is_error : Bool
  timestamp : Option String
  ts_ms : Option Int

/-- `log_command(source, command, result, is_error)`: build the entry,
stamp it with `_timestamp_payload()`, append it to the history and evict
one entry from the head when the capacity is exceeded.  Returns the new
history and the entry (the broadcast and terminal printing have no
shared-state effect). -/
def log_command (source command : String) (result : Option JVal)
    (is_error : Bool) (nowPayload : TimestampPayload)
    (hist : List HistEntry) : List HistEntry × HistEntry :=
  let entry : HistEntry :=
    { source := source, command := command, result := result,
      is_error := is_error, timestamp := some nowPayload.timestamp,
      ts_ms := some nowPayload.ts_ms }
  let hist := hist ++ [entry]
  let hist := if MAX_HISTORY < hist.length then hist.tail else hist
  (hist, entry)

/-- The `/api/terminal_notify` route body on a parsed request: keep a
caller-supplied `timestamp`/`ts_ms` only when present and non-null, and
when either key is missing overwrite BOTH with `_timestamp_payload()`;
then append to the history with the same head eviction as `log_command`.
`result`/`is_error` are the values after `normalize_grep_no_match`,
whose internals are outside this development. -/
def terminal_notify (command : String) (result : Option JVal)
    (is_error : Bool) (ts : Option String) (ts_ms : Option Int)
    (nowPayload : TimestampPayload) (hist : List HistEntry) :
    List HistEntry × HistEntry :=
  let entry : HistEntry :=
    { source := "terminal", command := command, result := result,
      is_error := is_error, timestamp := ts, ts_ms := ts_ms }
  let entry :=
    if entry.timestamp.isNone || entry.ts_ms.isNone then
      { entry with timestamp := some nowPayload.timestamp,
                   ts_ms := some nowPayload.ts_ms }
    else entry
  let hist := hist ++ [entry]
  let hist := if MAX_HISTORY < hist.length then hist.tail else hist
  (hist, entry)

/-- One append to the command history, through either producing path. -/
inductive HistAppend where
  | live (source command : String) (result : Option JVal) (is_error : Bool)
      (nowPayload : TimestampPayload)
  | notify (command : String) (result : Option JVal) (is_error : Bool)
      (ts : Option String) (ts_ms : Option Int)
      (nowPayload : TimestampPayload)

/-- Apply one append to the history through its source path. -/
def applyHistAppend (hist : List HistEntry) : HistAppend → List HistEntry
  | .live source command result is_error nowPayload =>
    (log_command source command result is_error nowPayload hist).1
  | .notify command result is_error ts ts_ms nowPayload =>
    (terminal_notify command result is_error ts ts_ms nowPayload hist).1

/-- The entry a given append stores (before eviction). -/
def HistAppend.entry : HistAppend → HistEntry
  | .live source command result is_error nowPayload =>
    (log_command source command result is_error nowPayload []).2
  | .notify command result is_error ts ts_ms nowPayload =>
    (terminal_notify command result is_error ts ts_ms nowPayload []).2

/-- The command history after a sequence of appends starting from the
process-start empty history. -/
def runHistory (ops : List HistAppend) : List HistEntry :=
  ops.foldl applyHistAppend []

/-- `_format_event_command(event)`: the human-readable replay summary
keyed off `event_type`.  String interpolation of a field value goes
through `pyStr`. -/
def _format_event_command (e : Event) : String :=
  let get := fun (k : String) => pyStr ((e.fields.lookup k).getD (.str "" none))
  let event_type :=
    let t := (pyStr ((e.fields.lookup "event_type").getD (.str "event" none))).trim
    if t = "" then "event" else t
  let fp := get "file_path"
  let oldp := get "old_path"
  let newp := get "new_path"
  let srcp := get "source_path"
  let dstp := get "dest_path"
  let query := get "query"
  let dirp := get "directory_path"
  let dirc := get "dir_path"
  let fromf := get "from_file"
  let tof := get "to_file"
  let srcf := get "source_file"
  let tgtf := get "target_file"
  let errt := get "error_type"
  let strat := get "strategy"
  if event_type = "file_read" then s!"[replay] file_read {fp}"
  else if event_type = "file_write" then
    let op := pyStr ((e.fields.lookup "operation").getD (.str "create" none))
    s!"[replay] file_write {fp} ({op})"
  else if event_type = "file_edit" then s!"[replay] file_edit {fp}"
  else if event_type = "file_move" then
    s!"[replay] file_move {oldp} -> {newp}"
  else if event_type = "file_rename" then
    s!"[replay] file_rename {oldp} -> {newp}"
  else if event_type = "file_copy" then
    s!"[replay] file_copy {srcp} -> {dstp}"
  else if event_type = "file_delete" then s!"[replay] file_delete {fp}"
  else if event_type = "file_search" then
    let st := pyStr ((e.fields.lookup "search_type").getD (.str "glob" none))
    s!"[replay] file_search {st} {query}"
  else if event_type = "file_browse" then s!"[replay] file_browse {dirp}"
  else if event_type = "dir_create" then s!"[replay] dir_create {dirc}"
  else if event_type = "context_switch" then
    s!"[replay] context_switch {fromf} -> {tof}"
  else if event_type = "cross_file_reference" then
    s!"[replay] cross_file_reference {srcf} -> {tgtf}"
  else if event_type = "error_encounter" then
    s!"[replay] error_encounter {errt}"
  else if event_type = "error_response" then
    s!"[replay] error_response {strat}"
  else s!"[replay] {event_type}"

/-- `_wait_for_replay_client(session_id)` in a quiescent environment
(no concurrent state change): `some b` when the call returns `b`, `none`
when the polling loop never returns (gate enabled, session live, zero
clients). -/
def _wait_for_replay_client (noClientGate : Bool) (clients : Nat)
    (session_id : Nat) (s : ReplayState) : Option Bool :=
  if noClientGate then
    some (s.running && s.session_id == session_id)
  else if !(s.running && s.session_id == session_id) then
    some false
  else if 0 < clients then some true
  else none

/-- The `_update_replay_state` merge performed after each emitted event. -/
def updateAfterEmit (idx : Nat) (e : Event) (s : ReplayState) : ReplayState :=
  { s with
    events_sent := idx + 1
    last_event_type := pyStr ((e.fields.lookup "event_type").getD (.str "" none))
    last_event_ts := some e.timestamp }

/-- The terminal `_update_replay_state` merge after the loop completes
without early exit. -/
def finishReplayState (now : Nat) (s : ReplayState) : ReplayState :=
  { s with
    running := false
    completed := true
    finished_at := some now
    error := none }

/-- The `log_command` call the worker makes for one emitted event. -/
def workerHistAppend (e : Event) (nowPayload : TimestampPayload)
    (hist : List HistEntry) : List HistEntry :=
  (log_command "agent" (_format_event_command e)
    (some (.dict [("success", .bool true),
                  ("event_type", (e.fields.lookup "event_type").getD
                      (.str "event" none))]))
    false nowPayload hist).1

/-- The loop of `_replay_worker` from position `idx` of the remaining
`pending` events, in a quiescent environment.  Timing (`base_ts`,
`perf_counter`, `sleep`) has no shared-state effect and is omitted; the
early `return` branches of the source become the `(state, history, [])`
results.  The third component records the `events_sent` value published
for each emitted event, in emission order; `none` means the worker never
returns (blocked on the presence gate). -/
def replayWorkerLoop (noClientGate : Bool) (clients : Nat)
    (session_id : Nat) (nowPayload : TimestampPayload) (now : Nat) :
    List Event → Nat → ReplayState → List HistEntry →
    Option (ReplayState × List HistEntry × List Nat)
  | [], _, s, hist => some (finishReplayState now s, hist, [])
  | e :: rest, idx, s, hist =>
    if ¬(s.running = true ∧ s.session_id = session_id) then
      some (s, hist, [])
    else if ¬(s.running = true ∧ s.session_id = session_id) then
      -- the re-check after the timing sleep
      some (s, hist, [])
    else
      match _wait_for_replay_client noClientGate clients session_id s with
      | none => none
      | some false => some (s, hist, [])
      | some true =>
        let hist' := workerHistAppend e nowPayload hist
        let s' := updateAfterEmit idx e s
        match replayWorkerLoop noClientGate clients session_id nowPayload now
            rest (idx + 1) s' hist' with
        | none => none
        | some (sf, hf, ems) => some (sf, hf, (idx + 1) :: ems)

/-- `_replay_worker(session_id, events_path, events, speed)` run from the
start of the event list. -/
def _replay_worker (noClientGate : Bool) (clients : Nat) (session_id : Nat)
    (events : List Event) (nowPayload : TimestampPayload) (now : Nat)
    (s : ReplayState) (hist : List HistEntry) :
    Option (ReplayState × List HistEntry × List Nat) :=
  replayWorkerLoop noClientGate clients session_id nowPayload now
    events 0 s hist

/-- C1: for every trace document the event loader produces the events
sorted stably ascending by the key `(timestamp, original_index)` — the
sorted indexed list is ordered by `replayKeyLe` and is a permutation of
the enumerated kept records (so equal timestamps keep their original
relative order, the unique original index breaking the tie) — and for a
trace whose records have timestamps `[3,1,2]` at original indices
`0,1,2` the loaded order is original indices `1,2,0`. -/
theorem load_replay_events_sorted_stable :
    (∀ items : List JVal, (indexedReplayEvents items).Sorted replayKeyLe) ∧
    (∀ items : List JVal, (indexedReplayEvents items).Perm
      (items.enum.filterMap fun p => (keepRecord p.2).map fun e => (p.1, e))) ∧
    indexedReplayEvents
      [.dict [("timestamp", .num 3)], .dict [("timestamp", .num 1)],
       .dict [("timestamp", .num 2)]] =
      [(1, ⟨1, [("timestamp", .num 1)]⟩), (2, ⟨2, [("timestamp", .num 2)]⟩),
       (0, ⟨3, [("timestamp", .num 3)]⟩)] ∧
    _load_replay_events (.list
      [.dict [("timestamp", .num 3)], .dict [("timestamp", .num 1)],
       .dict [("timestamp", .num 2)]]) =
      .ok [⟨1, [("timestamp", .num 1)]⟩, ⟨2, [("timestamp", .num 2)]⟩,
           ⟨3, [("timestamp", .num 3)]⟩] :=
  ⟨fun _ => List.sorted_insertionSort replayKeyLe _,
   fun _ => List.perm_insertionSort replayKeyLe _,
   rfl, rfl⟩

/-- C5 counterexample: stopping twice in a row with the default reason
does NOT produce identical snapshots — the second stop bumps
`session_id` again (and re-stamps `finished_at`), so the claim's "no
field difference beyond what the first stop already established" fails
even with an identical clock reading. -/
theorem replay_stop_twice_differs :
    replay_stop 0 (replay_stop 0 initialReplayState) ≠
      replay_stop 0 initialReplayState := by
  decide

/-- C5 (amended): stopping twice in a row with the default reason yields
`running = false`, `completed = false` and `error = null` both times —
the second call does not change the observable error field — and the
second snapshot differs from the first only in `session_id` (bumped
again) and `finished_at` (re-stamped). -/
theorem replay_stop_idempotent_observables :
    ∀ (s : ReplayState) (now1 now2 : Nat),
      (replay_stop now1 s).running = false ∧
      (replay_stop now2 (replay_stop now1 s)).running = false ∧
      (replay_stop now1 s).error = none ∧
      (replay_stop now2 (replay_stop now1 s)).error = none ∧
      (replay_stop now2 (replay_stop now1 s)).completed =
        (replay_stop now1 s).completed ∧
      replay_stop now2 (replay_stop now1 s) =
        { replay_stop now1 s with
          session_id := (replay_stop now1 s).session_id + 1
          finished_at := some now2 } := by
  intro s now1 now2
  simp [replay_stop, _stop_replay_session]

/-- C10: every call to the stop route sets `completed` to `false`
unconditionally — so stopping after a completed replay erases the
`completed = true` flag, the status snapshot then reports
`running = false` and `completed = false`, and the epoch is incremented
even though no worker was active. -/
theorem replay_stop_clears_completed :
    ∀ (s : ReplayState) (now : Nat),
      (replay_stop now s).completed = false ∧
      (_replay_state_snapshot (replay_stop now s)).running = false ∧
      (_replay_state_snapshot (replay_stop now s)).completed = false ∧
      (replay_stop now s).session_id = s.session_id + 1 := by
  intro s now
  simp [replay_stop, _stop_replay_session, _replay_state_snapshot]

/-- C3 counterexample: a start request whose event loading fails (here a
non-array trace document, on the idle initial state) does NOT leave
every field of the shared replay state unchanged — the `error` field
changes from `null` to the load error. -/
theorem replay_start_failure_mutates_state :
    (replay_start (.num 5) "trace.json" 1 7 initialReplayState).state.error ≠
      initialReplayState.error := by
  decide

/-- C3 (amended): for a start request on an idle session whose event
loading fails, the call surfaces the error to the caller, allocates no
new epoch (`session_id` unchanged) and spawns no worker, and the session
stays non-running — but the shared replay state is NOT left untouched:
`running`/`completed` are forced to `false`, and `events_path`, `error`
and `finished_at` are overwritten; all other fields keep their previous
values. -/
theorem replay_start_load_failure_state :
    ∀ (doc : JVal) (pathStr : String) (speedRaw : Rat) (now : Nat)
      (s : ReplayState),
      s.running = false →
      (∃ m, _load_replay_events doc = .error m) ∨
        _load_replay_events doc = .ok [] →
      ∃ msg,
        (replay_start doc pathStr speedRaw now s).ok = false ∧
        (replay_start doc pathStr speedRaw now s).errorMsg = some msg ∧
        (replay_start doc pathStr speedRaw now s).spawned = none ∧
        (replay_start doc pathStr speedRaw now s).state.session_id =
          s.session_id ∧
        (replay_start doc pathStr speedRaw now s).state =
          { s with running := false, completed := false,
                   events_path := pathStr, error := some msg,
                   finished_at := some now } := by
  intro doc pathStr speedRaw now s hrun hload
  rcases hload with ⟨m, hm⟩ | hm
  · exact ⟨m, by simp [replay_start, _replay_state_snapshot, hrun,
      _start_replay_session, hm]⟩
  · exact ⟨"events file is empty", by simp [replay_start,
      _replay_state_snapshot, hrun, _start_replay_session, hm, List.isEmpty]⟩

/-- Witness for the amended C3 theorem at a concrete malformed trace
document and the idle initial state. -/
theorem replay_start_load_failure_state_witness :
    ∃ msg,
      (replay_start (.num 5) "trace.json" 1 7 initialReplayState).ok = false ∧
      (replay_start (.num 5) "trace.json" 1 7 initialReplayState).errorMsg =
        some msg ∧
      (replay_start (.num 5) "trace.json" 1 7 initialReplayState).spawned =
        none ∧
      (replay_start (.num 5) "trace.json" 1 7
        initialReplayState).state.session_id =
        initialReplayState.session_id ∧
      (replay_start (.num 5) "trace.json" 1 7 initialReplayState).state =
        { initialReplayState with
          running := false
          completed := false
          events_path := "trace.json"
          error := some msg
          finished_at := some 7 } :=
  replay_start_load_failure_state (.num 5) "trace.json" 1 7
    initialReplayState rfl (Or.inl ⟨"events file must be a JSON array", rfl⟩)

/-- A trace array all of whose entries are non-dict values yields the
empty indexed event list. -/
theorem indexedReplayEvents_eq_nil_of_no_dict (items : List JVal)
    (h : ∀ v ∈ items, v.isDict = false) :
    indexedReplayEvents items = [] := by
  unfold indexedReplayEvents
  have hnil : items.enum.filterMap
      (fun p => (keepRecord p.2).map fun e => (p.1, e)) = [] := by
    rw [List.filterMap_eq_nil_iff]
    rintro ⟨i, v⟩ hmem
    have hv : v ∈ items := by
      rw [List.enum_eq_enumFrom] at hmem
      obtain ⟨-, hlt, hget⟩ := List.mem_enumFrom hmem
      exact hget ▸ List.getElem_mem _
    have := h v hv
    cases v <;> simp [keepRecord, JVal.isDict] at this ⊢
  rw [hnil]
  rfl

/-- C6: a trace document that loads to zero usable events — here any
valid JSON array whose entries are all non-record values — makes the
start route fail with the `EmptyTrace` error surfaced to the caller
rather than succeed as a silent no-op, and spawns no worker. -/
theorem replay_start_empty_trace_fails :
    ∀ (items : List JVal) (pathStr : String) (speedRaw : Rat) (now : Nat)
      (s : ReplayState),
      (∀ v ∈ items, v.isDict = false) →
      _load_replay_events (.list items) = .ok [] ∧
      (replay_start (.list items) pathStr speedRaw now s).ok = false ∧
      (replay_start (.list items) pathStr speedRaw now s).errorMsg =
        some "events file is empty" ∧
      (replay_start (.list items) pathStr speedRaw now s).spawned = none := by
  intro items pathStr speedRaw now s h
  have hload : _load_replay_events (.list items) = .ok [] := by
    simp [_load_replay_events, unwrapTracePayload,
      indexedReplayEvents_eq_nil_of_no_dict items h]
  refine ⟨hload, ?_⟩
  simp [replay_start, _start_replay_session, hload]

/-- Witness for C6 at a concrete array of non-record values. -/
theorem replay_start_empty_trace_fails_witness :
    _load_replay_events (.list [.num 1, .null, .str "x" none]) = .ok [] ∧
    (replay_start (.list [.num 1, .null, .str "x" none]) "p.json" 1 3
      initialReplayState).ok = false ∧
    (replay_start (.list [.num 1, .null, .str "x" none]) "p.json" 1 3
      initialReplayState).errorMsg = some "events file is empty" ∧
    (replay_start (.list [.num 1, .null, .str "x" none]) "p.json" 1 3
      initialReplayState).spawned = none :=
  replay_start_empty_trace_fails [.num 1, .null, .str "x" none] "p.json" 1 3
    initialReplayState (by decide)

/-- Projecting away the indices of the enumerated-and-filtered record
list recovers the plain filtered record list. -/
theorem filterMap_enumFrom_map_snd {α β : Type} (g : α → Option β) :
    ∀ (n : Nat) (l : List α),
      ((List.enumFrom n l).filterMap
          (fun p => (g p.2).map fun e => (p.1, e))).map Prod.snd =
        l.filterMap g := by
  intro n l
  induction l generalizing n with
  | nil => rfl
  | cons a as ih =>
    rw [List.enumFrom, List.filterMap_cons, List.filterMap_cons]
    cases h : g a <;> simp [h, ih]

/-- C7: loading a trace array never fails as a whole: every record that
is a mapping is kept (up to the sorted order — the loaded events are a
permutation of the kept records), a non-mapping record is silently
skipped, and a kept mapping whose `timestamp` field is absent or not
convertible to a number gets its timestamp defaulted to `0.0`. -/
theorem load_replay_events_tolerant :
    ∀ items : List JVal,
      (∃ es, _load_replay_events (.list items) = .ok es ∧
        es.Perm (items.filterMap keepRecord)) ∧
      (∀ v : JVal, v.isDict = false → keepRecord v = none) ∧
      (∀ fs : List (String × JVal),
        (fs.lookup "timestamp" = none ∨
          (∃ v, fs.lookup "timestamp" = some v ∧ pyFloat v = none)) →
        keepRecord (.dict fs) = some ⟨0, fs⟩) := by
  intro items
  refine ⟨⟨(indexedReplayEvents items).map Prod.snd, rfl, ?_⟩, ?_, ?_⟩
  · have hperm : (indexedReplayEvents items).Perm
        (items.enum.filterMap fun p => (keepRecord p.2).map fun e => (p.1, e)) :=
      List.perm_insertionSort replayKeyLe _
    have := hperm.map Prod.snd
    rwa [List.enum_eq_enumFrom, filterMap_enumFrom_map_snd keepRecord] at this
  · intro v hv
    cases v <;> simp_all [keepRecord, JVal.isDict]
  · rintro fs (hnone | ⟨v, hv, hfl⟩) <;>
      simp [keepRecord, normalizeRecord, *]

/-- Witness for C7: a record with an unparseable string timestamp is
kept with timestamp `0`, and a non-mapping record is skipped. -/
theorem load_replay_events_tolerant_witness :
    keepRecord (.dict [("timestamp", .str "oops" none)]) =
      some ⟨0, [("timestamp", .str "oops" none)]⟩ ∧
    keepRecord .null = none :=
  ⟨(load_replay_events_tolerant []).2.2 [("timestamp", .str "oops" none)]
      (Or.inr ⟨.str "oops" none, rfl, rfl⟩),
   (load_replay_events_tolerant []).2.1 .null rfl⟩

/-- C4: whenever the worker's per-event check observes that its bound
epoch is no longer the current `session_id` or that `running` is false —
in particular after a new session's epoch has been assigned — the worker
returns without emitting that event or any later event and without
modifying the shared replay state (or the history). -/
theorem replay_worker_superseded_exits :
    ∀ (noClientGate : Bool) (clients session_id : Nat)
      (nowPayload : TimestampPayload) (now : Nat) (e : Event)
      (rest : List Event) (idx : Nat) (s : ReplayState)
      (hist : List HistEntry),
      (s.session_id ≠ session_id ∨ s.running = false) →
      replayWorkerLoop noClientGate clients session_id nowPayload now
        (e :: rest) idx s hist = some (s, hist, []) := by
  intro noClientGate clients session_id nowPayload now e rest idx s hist h
  have hc : ¬(s.running = true ∧ s.session_id = session_id) := by
    rcases h with h | h
    · exact fun hx => h hx.2
    · intro hx
      rw [h] at hx
      exact Bool.false_ne_true hx.1
  simp [replayWorkerLoop, hc]

/-- Witness for C4: a worker bound to epoch 2 observing the shared state
at epoch 1 exits silently before emitting. -/
theorem replay_worker_superseded_exits_witness :
    replayWorkerLoop false 0 2 ⟨"t", 0⟩ 0 [⟨0, []⟩] 0
      { initialReplayState with running := true, session_id := 1 } [] =
      some ({ initialReplayState with running := true, session_id := 1 },
        [], []) :=
  replay_worker_superseded_exits false 0 2 ⟨"t", 0⟩ 0 ⟨0, []⟩ [] 0
    { initialReplayState with running := true, session_id := 1 } []
    (Or.inl (by decide))

/-- The worker loop, run on a live matching session with the presence
gate passable, visits every remaining event: it publishes the
`events_sent` values `idx+1, idx+2, ...` in order and ends in the
terminal completed state. -/
theorem replayWorkerLoop_runs_to_completion
    (noClientGate : Bool) (clients session_id : Nat)
    (nowPayload : TimestampPayload) (now : Nat)
    (hgate : noClientGate = true ∨ 0 < clients) :
    ∀ (pending : List Event) (idx : Nat) (s : ReplayState)
      (hist : List HistEntry),
      s.running = true → s.session_id = session_id →
      ∃ sf hf,
        replayWorkerLoop noClientGate clients session_id nowPayload now
          pending idx s hist =
          some (sf, hf, List.range' (idx + 1) pending.length) ∧
        sf.running = false ∧ sf.completed = true ∧ sf.error = none ∧
        sf.finished_at = some now ∧
        sf.events_sent =
          (if pending.isEmpty then s.events_sent else idx + pending.length) := by
  intro pending
  induction pending with
  | nil =>
    intro idx s hist h1 h2
    exact ⟨finishReplayState now s, hist, rfl, rfl, rfl, rfl, rfl, rfl⟩
  | cons e rest ih =>
    intro idx s hist h1 h2
    have hc : s.running = true ∧ s.session_id = session_id := ⟨h1, h2⟩
    have hbool : (s.running && (s.session_id == session_id)) = true := by
      simp [h1, h2]
    have hwait : _wait_for_replay_client noClientGate clients session_id s =
        some true := by
      cases noClientGate with
      | true => simp [_wait_for_replay_client, hbool]
      | false =>
        rcases hgate with hg | hg
        · exact absurd hg (by simp)
        · simp [_wait_for_replay_client, hbool, hg]
    have h1' : (updateAfterEmit idx e s).running = true := h1
    have h2' : (updateAfterEmit idx e s).session_id = session_id := h2
    obtain ⟨sf, hf, heq, p1, p2, p3, p4, p5⟩ :=
      ih (idx + 1) (updateAfterEmit idx e s)
        (workerHistAppend e nowPayload hist) h1' h2'
    refine ⟨sf, hf, ?_, p1, p2, p3, p4, ?_⟩
    · have hstep : replayWorkerLoop noClientGate clients session_id nowPayload
          now (e :: rest) idx s hist =
          match replayWorkerLoop noClientGate clients session_id nowPayload now
              rest (idx + 1) (updateAfterEmit idx e s)
              (workerHistAppend e nowPayload hist) with
          | none => none
          | some (sf, hf, ems) => some (sf, hf, (idx + 1) :: ems) := by
        simp [replayWorkerLoop, hc, hwait]
      rw [hstep, heq]
      simp [List.range']
    · cases rest with
      | nil => simpa [updateAfterEmit] using p5
      | cons a l =>
        simp [List.isEmpty_cons] at p5 ⊢
        omega

/-- C2: for a non-empty loaded event sequence, when the worker iterates
without an early exit (its epoch stays current, the session stays
running, and the presence wait is passable — gate disabled or a client
connected), the published `events_sent` values are exactly
`1, 2, ..., total` in order, and the final published state has
`running = false`, `completed = true`, `error = null` and `finished_at`
set, with `events_sent` at the total event count. -/
theorem replay_worker_full_run :
    ∀ (noClientGate : Bool) (clients session_id : Nat)
      (nowPayload : TimestampPayload) (now : Nat) (events : List Event)
      (s : ReplayState) (hist : List HistEntry),
      s.running = true → s.session_id = session_id →
      (noClientGate = true ∨ 0 < clients) → events ≠ [] →
      ∃ sf hf,
        _replay_worker noClientGate clients session_id events nowPayload now
          s hist = some (sf, hf, List.range' 1 events.length) ∧
        sf.running = false ∧ sf.completed = true ∧ sf.error = none ∧
        sf.finished_at = some now ∧ sf.events_sent = events.length := by
  intro noClientGate clients session_id nowPayload now events s hist
    h1 h2 hgate hne
  obtain ⟨sf, hf, heq, p1, p2, p3, p4, p5⟩ :=
    replayWorkerLoop_runs_to_completion noClientGate clients session_id
      nowPayload now hgate events 0 s hist h1 h2
  refine ⟨sf, hf, heq, p1, p2, p3, p4, ?_⟩
  cases events with
  | nil => exact absurd rfl hne
  | cons e rest => simpa using p5

/-- Witness for C2 on a concrete two-event trace with the presence gate
disabled. -/
theorem replay_worker_full_run_witness :
    ∃ sf hf,
      _replay_worker true 0 1 [⟨0, []⟩, ⟨2, []⟩] ⟨"t", 0⟩ 9
        { initialReplayState with running := true, session_id := 1 } [] =
        some (sf, hf, List.range' 1 2) ∧
      sf.running = false ∧ sf.completed = true ∧ sf.error = none ∧
      sf.finished_at = some 9 ∧ sf.events_sent = 2 :=
  replay_worker_full_run true 0 1 ⟨"t", 0⟩ 9 [⟨0, []⟩, ⟨2, []⟩]
    { initialReplayState with running := true, session_id := 1 } []
    rfl rfl (Or.inl rfl) (List.cons_ne_nil _ _)

/-- Both append paths perform the same append-then-evict step on the
history, with the path's own entry. -/
theorem applyHistAppend_eq (hist : List HistEntry) (a : HistAppend) :
    applyHistAppend hist a =
      (if MAX_HISTORY < (hist ++ [a.entry]).length
       then (hist ++ [a.entry]).tail else hist ++ [a.entry]) := by
  cases a <;> rfl

/-- One append-then-evict step on the capacity-suffix of a list extends
it to the capacity-suffix of the extended list. -/
theorem append_evict_drop {α : Type} (l : List α) (e : α) (cap : Nat)
    (hcap : 0 < cap) :
    (if cap < (l.drop (l.length - cap) ++ [e]).length
     then (l.drop (l.length - cap) ++ [e]).tail
     else l.drop (l.length - cap) ++ [e]) =
      (l ++ [e]).drop (l.length + 1 - cap) := by
  have hdlen : (l.drop (l.length - cap)).length = l.length - (l.length - cap) :=
    List.length_drop _ _
  by_cases hn : cap ≤ l.length
  · have hM : (l.drop (l.length - cap)).length = cap := by omega
    rw [if_pos (by rw [List.length_append, hM]; simp)]
    rw [← List.drop_one, List.drop_append_of_le_length (by omega),
      List.drop_drop, List.drop_append_of_le_length (by omega)]
    congr 2
    omega
  · have h0 : l.length - cap = 0 := by omega
    rw [h0, List.drop_zero, if_neg (by rw [List.length_append]; simp; omega),
      Nat.sub_eq_zero_of_le (by omega), List.drop_zero]

/-- The command history after any append sequence from the empty history
is exactly the capacity-suffix of the full sequence of appended entries. -/
theorem runHistory_eq_drop (ops : List HistAppend) :
    runHistory ops =
      (ops.map HistAppend.entry).drop (ops.length - MAX_HISTORY) := by
  induction ops using List.reverseRecOn with
  | nil => rfl
  | append_singleton ops a ih =>
    have hstep : runHistory (ops ++ [a]) =
        applyHistAppend (runHistory ops) a := by
      rw [runHistory, runHistory, List.foldl_append]
      rfl
    rw [hstep, ih, applyHistAppend_eq]
    have hlen : (ops.map HistAppend.entry).length = ops.length :=
      List.length_map _ _
    have key := append_evict_drop (ops.map HistAppend.entry) a.entry
      MAX_HISTORY (by norm_num [MAX_HISTORY])
    rw [hlen] at key
    simpa [List.map_append] using key

/-- C8: the command history length never exceeds the capacity
`MAX_HISTORY = 100` for any sequence of appends through either path
(live command logging or terminal notification); and appending
`capacity + k` entries (`k > 0`) leaves exactly `capacity` entries — the
`k` oldest evicted from the head, the surviving entries in their
original append order. -/
theorem command_history_bounded :
    (∀ ops : List HistAppend, (runHistory ops).length ≤ MAX_HISTORY) ∧
    (∀ (ops : List HistAppend) (k : Nat), 0 < k →
      ops.length = MAX_HISTORY + k →
      runHistory ops = (ops.map HistAppend.entry).drop k ∧
      (runHistory ops).length = MAX_HISTORY) := by
  constructor
  · intro ops
    rw [runHistory_eq_drop, List.length_drop, List.length_map]
    omega
  · intro ops k hk hlen
    have hd : ops.length - MAX_HISTORY = k := by omega
    refine ⟨by rw [runHistory_eq_drop, hd], ?_⟩
    rw [runHistory_eq_drop, List.length_drop, List.length_map]
    omega

/-- Witness for C8: 101 live appends leave exactly 100 entries, the
oldest evicted. -/
theorem command_history_bounded_witness :
    runHistory (List.replicate 101 (.live "terminal" "ls" none false
        ⟨"t", 0⟩)) =
      ((List.replicate 101 ((HistAppend.live "terminal" "ls" none false
        ⟨"t", 0⟩))).map HistAppend.entry).drop 1 ∧
    (runHistory (List.replicate 101 (.live "terminal" "ls" none false
        ⟨"t", 0⟩))).length = MAX_HISTORY :=
  command_history_bounded.2
    (List.replicate 101 (.live "terminal" "ls" none false ⟨"t", 0⟩)) 1
    (by decide) (by simp [MAX_HISTORY])

/-- The append-then-evict step always keeps the newly appended entry at
the tail of the history. -/
theorem histEvictGetLast {l : List HistEntry} {e : HistEntry} :
    (if MAX_HISTORY < (l ++ [e]).length then (l ++ [e]).tail
     else l ++ [e]).getLast? = some e := by
  split
  · rename_i h
    rw [List.length_append] at h
    rw [← List.drop_one,
      List.drop_append_of_le_length (by simp [MAX_HISTORY] at h; omega),
      List.getLast?_concat]
  · exact List.getLast?_concat _

/-- C9: in the terminal-notify append path a caller-supplied timestamp
survives only when the request supplies BOTH `timestamp` and `ts_ms`;
when exactly one of the two is supplied the stored entry has both fields
replaced by the server-generated current time, discarding the supplied
value; and the entry stored at the tail of the history is that same
entry. -/
theorem terminal_notify_timestamp_pairing :
    ∀ (command : String) (result : Option JVal) (is_error : Bool)
      (ts : Option String) (ts_ms : Option Int)
      (nowPayload : TimestampPayload) (hist : List HistEntry),
      (∀ t m, ts = some t → ts_ms = some m →
        (terminal_notify command result is_error ts ts_ms nowPayload
            hist).2.timestamp = some t ∧
        (terminal_notify command result is_error ts ts_ms nowPayload
            hist).2.ts_ms = some m) ∧
      ((ts.isSome = true ∧ ts_ms.isSome = false) ∨
        (ts.isSome = false ∧ ts_ms.isSome = true) →
        (terminal_notify command result is_error ts ts_ms nowPayload
            hist).2.timestamp = some nowPayload.timestamp ∧
        (terminal_notify command result is_error ts ts_ms nowPayload
            hist).2.ts_ms = some nowPayload.ts_ms) ∧
      (terminal_notify command result is_error ts ts_ms nowPayload
          hist).1.getLast? =
        some (terminal_notify command result is_error ts ts_ms nowPayload
          hist).2 := by
  intro command result is_error ts ts_ms nowPayload hist
  refine ⟨?_, ?_, ?_⟩
  · rintro t m rfl rfl
    simp [terminal_notify]
  · rintro (⟨h1, h2⟩ | ⟨h1, h2⟩) <;>
      cases ts <;> cases ts_ms <;> simp_all [terminal_notify]
  · simp only [terminal_notify]
    exact histEvictGetLast

/-- Witness for C9 at concrete supplied values: with only `timestamp`
supplied the stored entry carries the server time pair, and with both
supplied the caller's pair survives. -/
theorem terminal_notify_timestamp_pairing_witness :
    ((terminal_notify "ls" none false (some "T1") none
        ⟨"NOW", 42⟩ []).2.timestamp = some "NOW" ∧
      (terminal_notify "ls" none false (some "T1") none
        ⟨"NOW", 42⟩ []).2.ts_ms = some 42) ∧
    ((terminal_notify "ls" none false (some "T1") (some 7)
        ⟨"NOW", 42⟩ []).2.timestamp = some "T1" ∧
      (terminal_notify "ls" none false (some "T1") (some 7)
        ⟨"NOW", 42⟩ []).2.ts_ms = some 7) :=
  ⟨(terminal_notify_timestamp_pairing "ls" none false (some "T1") none
      ⟨"NOW", 42⟩ []).2.1 (Or.inl ⟨rfl, rfl⟩),
   (terminal_notify_timestamp_pairing "ls" none false (some "T1") (some 7)
      ⟨"NOW", 42⟩ []).1 "T1" 7 rfl rfl⟩
